import Mathlib

/-!
Shallow embedding of the march-madness edge-finding core
(scripts/edge_finder.py and scripts/dratings.py).

Python floats are modelled as exact rationals, Python ints as Lean
integers.  Fallible operations (Python division, which raises
ZeroDivisionError on a zero denominator) additionally get an
Option-returning variant so that "no exception is raised" is a provable
statement.  String data (team names, dates) is modelled as List Char so
Python str.replace / str.strip can be embedded faithfully and evaluated
by the kernel.
-/

namespace MarchMadness

/-- Python int() applied to an exact rational: truncation toward zero,
which on a normalised rational is T-division of numerator by denominator. -/
def pyInt (x : ℚ) : ℤ :=
  Int.tdiv x.num (x.den : ℤ)

/-- Python division a / b as a fallible operation: none models the
ZeroDivisionError raised when b = 0. -/
def pyDiv (a b : ℚ) : Option ℚ :=
  if b = 0 then none else some (a / b)

/-- EdgeFinder.odds_to_probability (edge_finder.py lines 64-69); the
dratings.py copy (lines 66-71) is textually identical.  Converts American
odds to an implied probability. -/
def odds_to_probability (odds : ℤ) : ℚ :=
  if 0 < odds then 100 / ((odds : ℚ) + 100)
  else ((|odds| : ℤ) : ℚ) / (((|odds| : ℤ) : ℚ) + 100)

/-- EdgeFinder.probability_to_odds (edge_finder.py lines 71-76); the
dratings.py copy (lines 73-78) is textually identical. -/
def probability_to_odds (prob : ℚ) : ℤ :=
  if 1/2 < prob then pyInt (-prob / (1 - prob) * 100)
  else pyInt ((1 - prob) / prob * 100)

/-- EdgeFinder.calculate_edge (edge_finder.py lines 78-82): guard is
market_prob <= 0. -/
def calculate_edge (model_prob market_prob : ℚ) : ℚ :=
  if market_prob ≤ 0 then 0
  else (model_prob - market_prob) / market_prob * 100

/-- EdgeFinder.calculate_edge with the division made explicitly fallible:
the branch taken and the value produced are those of calculate_edge, and a
none result would correspond to an uncaught ZeroDivisionError. -/
def calculate_edge_checked (model_prob market_prob : ℚ) : Option ℚ :=
  if market_prob ≤ 0 then some 0
  else (pyDiv (model_prob - market_prob) market_prob).map (fun q => q * 100)

/-- DRatingsAnalyzer.calculate_edge (dratings.py lines 80-84): unlike the
edge_finder.py copy, its guard is market_prob == 0 only. -/
def dratings_calculate_edge (model_prob market_prob : ℚ) : ℚ :=
  if market_prob = 0 then 0
  else (model_prob - market_prob) / market_prob * 100

/-- DRatingsAnalyzer.calculate_edge with explicitly fallible division. -/
def dratings_calculate_edge_checked (model_prob market_prob : ℚ) : Option ℚ :=
  if market_prob = 0 then some 0
  else (pyDiv (model_prob - market_prob) market_prob).map (fun q => q * 100)

/-- EdgeFinder.kelly_criterion (edge_finder.py lines 84-99).  The Python
default bankroll is 1000; callers inside the file always use the default. -/
def kelly_criterion (edge_prob market_prob bankroll : ℚ) : ℚ :=
  if market_prob ≤ 0 ∨ edge_prob ≤ 0 then 0
  else
    let odds := 1 / market_prob - 1
    let edge := edge_prob - market_prob
    if edge ≤ 0 then 0
    else min (bankroll * (edge / odds)) (bankroll * (5/100))

/-- Casting an integer into the rationals and truncating returns the
integer itself. -/
theorem pyInt_intCast (n : ℤ) : pyInt ((n : ℤ) : ℚ) = n := by
  simp [pyInt]

/-- C10: odds_to_probability always lands in [0, 1): it is nonnegative,
strictly below 1, strictly positive for nonzero odds, and exactly 0 at
odds 0 (no division fault, implied probability never reaches 1). -/
theorem odds_to_probability_range (o : ℤ) :
    0 ≤ odds_to_probability o ∧ odds_to_probability o < 1 ∧
      (o ≠ 0 → 0 < odds_to_probability o) ∧ (o = 0 → odds_to_probability o = 0) := by
  unfold odds_to_probability
  by_cases h : 0 < o
  · rw [if_pos h]
    have h1 : (1:ℚ) ≤ (o:ℚ) := by exact_mod_cast h
    have hden : (0:ℚ) < (o:ℚ) + 100 := by linarith
    refine ⟨le_of_lt (div_pos (by norm_num) hden), ?_,
      fun _ => div_pos (by norm_num) hden, fun h0 => absurd h0 (by omega)⟩
    rw [div_lt_one hden]
    linarith
  · rw [if_neg h]
    have ha0 : (0:ℚ) ≤ ((|o| : ℤ) : ℚ) := by
      exact_mod_cast abs_nonneg o
    have hden : (0:ℚ) < ((|o| : ℤ) : ℚ) + 100 := by linarith
    refine ⟨div_nonneg ha0 (le_of_lt hden), ?_, fun hne => ?_, fun h0 => ?_⟩
    · rw [div_lt_one hden]; linarith
    · have h1 : (1:ℤ) ≤ |o| := Int.one_le_abs hne
      have h1q : (1:ℚ) ≤ ((|o| : ℤ) : ℚ) := by exact_mod_cast h1
      exact div_pos (by linarith) hden
    · subst h0
      norm_num

/-- C10 witness: the bounds and strict positivity at the concrete odds
value -110. -/
theorem odds_to_probability_range_witness :
    0 ≤ odds_to_probability (-110) ∧ odds_to_probability (-110) < 1 ∧
      0 < odds_to_probability (-110) := by
  obtain ⟨h1, h2, h3, _⟩ := odds_to_probability_range (-110)
  exact ⟨h1, h2, h3 (by norm_num)⟩

/-- C5 counterexample: the round trip does not recover the sign of the
legitimate American odds value -100: it returns +100, a value of the
opposite sign at distance 200 from the input. -/
theorem roundtrip_fails_at_neg100 :
    probability_to_odds (odds_to_probability (-100)) = 100 ∧
      (-100 : ℤ) < 0 ∧ (0 : ℤ) < 100 := by
  refine ⟨?_, by norm_num, by norm_num⟩
  norm_num [probability_to_odds, odds_to_probability, pyInt]

/-- C5 (amended): for every integer American odds o with o at least 100 or
o strictly below -100, the round trip probability_to_odds after
odds_to_probability recovers o exactly (hence with the same sign); for
o = -100 the round trip returns +100 and for odds of magnitude below 100
neither sign nor value is recovered. -/
theorem roundtrip_odds (o : ℤ) (h : 100 ≤ o ∨ o < -100) :
    probability_to_odds (odds_to_probability o) = o := by
  rcases h with h | h
  · have hpos : 0 < o := by omega
    have hq : (100:ℚ) ≤ (o:ℚ) := by exact_mod_cast h
    have hden : (0:ℚ) < (o:ℚ) + 100 := by linarith
    rw [odds_to_probability, if_pos hpos]
    have hcond : ¬ (1/2 : ℚ) < 100 / ((o:ℚ) + 100) := by
      rw [not_lt, div_le_iff hden]
      linarith
    rw [probability_to_odds, if_neg hcond]
    have hval : (1 - 100 / ((o:ℚ) + 100)) / (100 / ((o:ℚ) + 100)) * 100 = ((o : ℤ) : ℚ) := by
      field_simp
    rw [hval, pyInt_intCast]
  · have hneg : ¬ 0 < o := by omega
    have habs : (|o| : ℤ) = -o := abs_of_neg (by omega)
    rw [odds_to_probability, if_neg hneg, habs]
    have hq : (100:ℚ) < ((-o : ℤ) : ℚ) := by
      exact_mod_cast (by omega : (100:ℤ) < -o)
    have hden : (0:ℚ) < ((-o : ℤ) : ℚ) + 100 := by linarith
    have hcond : (1/2 : ℚ) < ((-o : ℤ) : ℚ) / (((-o : ℤ) : ℚ) + 100) := by
      rw [lt_div_iff hden]
      linarith
    rw [probability_to_odds, if_pos hcond]
    have hval : -(((-o : ℤ) : ℚ) / (((-o : ℤ) : ℚ) + 100)) /
        (1 - ((-o : ℤ) : ℚ) / (((-o : ℤ) : ℚ) + 100)) * 100 = ((o : ℤ) : ℚ) := by
      have hne : ((-o : ℤ) : ℚ) + 100 ≠ 0 := ne_of_gt hden
      push_cast at hq hden ⊢
      field_simp
    rw [hval, pyInt_intCast]

/-- C5 witness: the round trip applied at the concrete odds 150 returns
150. -/
theorem roundtrip_odds_witness :
    (100 ≤ (150:ℤ) ∨ (150:ℤ) < -100) ∧
      probability_to_odds (odds_to_probability 150) = 150 :=
  ⟨Or.inl (by norm_num), roundtrip_odds 150 (Or.inl (by norm_num))⟩

/-- C8 counterexample: the dratings.py variant of calculate_edge guards
only market_prob == 0, so at the non-positive market probability -1/10 it
returns -600, not 0. -/
theorem dratings_calculate_edge_neg_counterexample :
    dratings_calculate_edge (1/2) (-1/10) = -600 ∧ (-600 : ℚ) ≠ 0 := by
  constructor
  · norm_num [dratings_calculate_edge]
  · norm_num

/-- C8 (amended): the edge_finder.py calculate_edge returns exactly 0 for
every market probability at most 0, with the division unreachable there
(its checked variant never signals a division fault); the dratings.py
variant guards only market probability equal to 0, returning 0 there, and
its checked variant also never signals a division fault. -/
theorem calculate_edge_guard (model_prob market_prob : ℚ) :
    (market_prob ≤ 0 → calculate_edge model_prob market_prob = 0) ∧
      calculate_edge_checked model_prob market_prob =
        some (calculate_edge model_prob market_prob) ∧
      dratings_calculate_edge model_prob 0 = 0 ∧
      dratings_calculate_edge_checked model_prob market_prob =
        some (dratings_calculate_edge model_prob market_prob) := by
  refine ⟨fun h => by rw [calculate_edge, if_pos h], ?_, by rw [dratings_calculate_edge, if_pos rfl], ?_⟩
  · unfold calculate_edge_checked calculate_edge pyDiv
    by_cases h : market_prob ≤ 0
    · rw [if_pos h, if_pos h]
    · have hne : market_prob ≠ 0 := fun h0 => h (le_of_eq h0)
      rw [if_neg h, if_neg h, if_neg hne]
      simp [div_eq_mul_inv]
  · unfold dratings_calculate_edge_checked dratings_calculate_edge pyDiv
    by_cases h : market_prob = 0
    · rw [if_pos h, if_pos h]
    · rw [if_neg h, if_neg h, if_neg h]
      simp [div_eq_mul_inv]

/-- C8 witness: the guard evaluated at concrete inputs, including a
strictly negative market probability for the edge_finder.py variant. -/
theorem calculate_edge_guard_witness :
    calculate_edge (3/4) (-2) = 0 ∧
      dratings_calculate_edge_checked (3/4) (5/7) =
        some (dratings_calculate_edge (3/4) (5/7)) :=
  ⟨(calculate_edge_guard (3/4) (-2)).1 (by norm_num),
    (calculate_edge_guard (3/4) (5/7)).2.2.2⟩

/-- C2: for model and market probabilities in [0, 1] and a nonnegative
bankroll, the Kelly stake is nonnegative, never exceeds 5 percent of the
bankroll, and is exactly 0 whenever the model edge over the market is
nonpositive. -/
theorem kelly_criterion_bounds (edge_prob market_prob bankroll : ℚ)
    (hm0 : 0 ≤ edge_prob) (hm1 : edge_prob ≤ 1)
    (hk0 : 0 ≤ market_prob) (hk1 : market_prob ≤ 1)
    (hb : 0 ≤ bankroll) :
    0 ≤ kelly_criterion edge_prob market_prob bankroll ∧
      kelly_criterion edge_prob market_prob bankroll ≤ bankroll * (5/100) ∧
      (edge_prob - market_prob ≤ 0 →
        kelly_criterion edge_prob market_prob bankroll = 0) := by
  have hcap : 0 ≤ bankroll * (5/100) := by positivity
  unfold kelly_criterion
  by_cases hg : market_prob ≤ 0 ∨ edge_prob ≤ 0
  · rw [if_pos hg]
    exact ⟨le_refl 0, hcap, fun _ => rfl⟩
  · rw [if_neg hg]
    push_neg at hg
    obtain ⟨hkpos, hmpos⟩ := hg
    by_cases he : edge_prob - market_prob ≤ 0
    · rw [if_pos he]
      exact ⟨le_refl 0, hcap, fun _ => rfl⟩
    · rw [if_neg he]
      push_neg at he
      have hklt1 : market_prob < 1 := by linarith
      have hodds : 0 < 1 / market_prob - 1 := by
        have : 1 < 1 / market_prob := by
          rw [lt_div_iff hkpos]
          linarith
        linarith
      have hfrac : 0 ≤ (edge_prob - market_prob) / (1 / market_prob - 1) :=
        le_of_lt (div_pos (by linarith) hodds)
      refine ⟨le_min (by positivity) hcap, min_le_right _ _, fun habs => ?_⟩
      exact absurd habs (not_le.mpr he)

/-- C2 witness: the extreme synthetic edge modelProb = 0.99 against
marketProb = 0.01 with bankroll 1000 still respects the bounds. -/
theorem kelly_criterion_bounds_witness :
    0 ≤ kelly_criterion (99/100) (1/100) 1000 ∧
      kelly_criterion (99/100) (1/100) 1000 ≤ 1000 * (5/100) := by
  obtain ⟨h1, h2, _⟩ := kelly_criterion_bounds (99/100) (1/100) 1000
    (by norm_num) (by norm_num) (by norm_num) (by norm_num) (by norm_num)
  exact ⟨h1, h2⟩

/-- Characters Python str.strip removes by default (ASCII whitespace). -/
def isPySpace (c : Char) : Bool :=
  c = ' ' || c = '\t' || c = '\n' || c = '\r' || c = '\x0b' || c = '\x0c'

/-- Python str.strip(): drop leading and trailing whitespace. -/
def pyStrip (s : List Char) : List Char :=
  ((s.dropWhile isPySpace).reverse.dropWhile isPySpace).reverse

/-- Python str.replace(p, r) on character lists, scanning left to right and
replacing non-overlapping occurrences; the fuel argument (instantiated with
the length of the string) makes the recursion structural.  An empty pattern
leaves the string unchanged (the source never passes one). -/
def replaceAllFuel (p r : List Char) : Nat → List Char → List Char
  | 0, s => s
  | _ + 1, [] => []
  | fuel + 1, c :: cs =>
    if p ≠ [] ∧ (c :: cs).take p.length = p then
      r ++ replaceAllFuel p r fuel ((c :: cs).drop p.length)
    else
      c :: replaceAllFuel p r fuel cs

/-- Python str.replace(p, r). -/
def replaceAll (p r s : List Char) : List Char :=
  replaceAllFuel p r s.length s

/-- The hardcoded alias table of normalize_team_names (edge_finder.py
lines 165-171). -/
def name_mapping : List (List Char × List Char) :=
  [("UNC".toList, "North Carolina".toList),
   ("Duke".toList, "Duke".toList),
   ("UCLA".toList, "UCLA".toList),
   ("UConn".toList, "Connecticut".toList),
   ("ASU".toList, "Arizona State".toList)]

/-- First-match association-list lookup (Python dict .get on the literal
table, whose keys are distinct). -/
def aliasLookup : List (List Char × List Char) → List Char → Option (List Char)
  | [], _ => none
  | (k, v) :: rest, n => if k = n then some v else aliasLookup rest n

/-- EdgeFinder.normalize_team_names (edge_finder.py lines 153-173): strip
whitespace, apply the four substring rewrites in source order, then the
alias table with the stripped string itself as fallback. -/
def normalize_team_names (team_name : List Char) : List Char :=
  let name := pyStrip team_name
  let name := replaceAll "University of ".toList [] name
  let name := replaceAll " University".toList [] name
  let name := replaceAll " State".toList " St".toList name
  let name := replaceAll "College".toList [] name
  (aliasLookup name_mapping name).getD name

/-- Modelled from the claim wording of C7 (not from the source): trim,
strip only the three filler substrings, then the alias table with
self-mapping fallback.  Used to exhibit the divergence from the source. -/
def claimed_normalize (team_name : List Char) : List Char :=
  let name := pyStrip team_name
  let name := replaceAll "University of ".toList [] name
  let name := replaceAll " University".toList [] name
  let name := replaceAll "College".toList [] name
  (aliasLookup name_mapping name).getD name

/-- The stripped (pre-alias) form actually computed by the source: trim,
then the four substring rewrites including the rewrite of " State" to
" St". -/
def strippedForm (team_name : List Char) : List Char :=
  replaceAll "College".toList []
    (replaceAll " State".toList " St".toList
      (replaceAll " University".toList []
        (replaceAll "University of ".toList [] (pyStrip team_name))))

/-- C7 counterexample: on the raw name "Michigan State" the resolver
returns "Michigan St", while the claimed algorithm (which strips only the
three filler substrings) returns the input unchanged; the additional
rewrite of " State" to " St" is missing from the claim. -/
theorem normalize_state_counterexample :
    normalize_team_names "Michigan State".toList = "Michigan St".toList ∧
      claimed_normalize "Michigan State".toList = "Michigan State".toList ∧
      "Michigan St".toList ≠ "Michigan State".toList := by
  refine ⟨by decide, by decide, by decide⟩

/-- C7 (amended): normalize_team_names is total and equals exactly: trim
whitespace; apply the substring rewrites "University of " to "", then
" University" to "", then " State" to " St", then "College" to "" (each a
global textual replacement); then apply the alias table to the rewritten
string; when no alias matches, the rewritten string itself is the
canonical identity. -/
theorem normalize_team_names_spec (team_name : List Char) :
    normalize_team_names team_name =
      (aliasLookup name_mapping (strippedForm team_name)).getD (strippedForm team_name) ∧
      (aliasLookup name_mapping (strippedForm team_name) = none →
        normalize_team_names team_name = strippedForm team_name) := by
  constructor
  · rfl
  · intro h
    show (aliasLookup name_mapping (strippedForm team_name)).getD (strippedForm team_name) =
      strippedForm team_name
    rw [h]
    rfl

/-- C7 witness: the raw name " Gonzaga " has no alias; the resolver trims
it and returns it as its own canonical identity. -/
theorem normalize_team_names_spec_witness :
    aliasLookup name_mapping (strippedForm " Gonzaga ".toList) = none ∧
      normalize_team_names " Gonzaga ".toList = strippedForm " Gonzaga ".toList ∧
      strippedForm " Gonzaga ".toList = "Gonzaga".toList :=
  ⟨by decide, (normalize_team_names_spec " Gonzaga ".toList).2 (by decide), by decide⟩

/-- The four optional metrics of one source's prediction record (the
inner predictions dict built by the dratings.py parsers, lines 154-159 and
197-202); None models both a missing key and an explicit None value. -/
structure PredData where
  model_win_prob_away : Option ℚ
  model_win_prob_home : Option ℚ
  predicted_spread : Option ℚ
  predicted_total : Option ℚ
deriving DecidableEq, Repr

/-- One raw per-source game record as consumed by the edge_finder.py
matcher: the team-name keys may be absent (the matcher checks for them),
the date is read with a default, and the inner predictions dict may be
absent. -/
structure SourceGame where
  away_team : Option (List Char)
  home_team : Option (List Char)
  date : Option (List Char)
  preds : Option PredData
deriving DecidableEq, Repr

/-- A matched game as built by match_games_across_sources (edge_finder.py
lines 197-203): canonical team names, the base game's date, and the
per-source records merged in, base source first. -/
structure MatchedGame where
  away_team : List Char
  home_team : List Char
  date : List Char
  predictions : List (String × SourceGame)
deriving DecidableEq, Repr

/-- EdgeFinder.is_same_game (edge_finder.py lines 219-225): true when the
record has both team keys and their canonical forms equal the targets; the
record's date is not consulted. -/
def is_same_game (g : SourceGame) (target_away target_home : List Char) : Bool :=
  match g.away_team, g.home_team with
  | some a, some b =>
      decide (normalize_team_names a = target_away) &&
        decide (normalize_team_names b = target_home)
  | _, _ => false

/-- First-match lookup in the per-source predictions mapping (a Python
dict with distinct keys, association-list modelled). -/
def pyLookup : List (String × List SourceGame) → String → Option (List SourceGame)
  | [], _ => none
  | (k, v) :: rest, s => if k = s then some v else pyLookup rest s

/-- The fixed anchor priority order of match_games_across_sources
(edge_finder.py line 181). -/
def anchor_candidates : List String := ["dratings", "cbbpy", "barttorvik"]

/-- Anchor selection: the first candidate source present in the mapping
with a non-empty record list (edge_finder.py lines 180-184). -/
def base_source (preds : List (String × List SourceGame)) : Option String :=
  anchor_candidates.find? (fun s =>
    match pyLookup preds s with
    | some gs => !gs.isEmpty
    | none => false)

/-- For one anchor game, the records of every non-anchor source whose
first team-matching game attaches to it (edge_finder.py lines 206-213). -/
def attach_others (preds : List (String × List SourceGame)) (bs : String)
    (away home : List Char) : List (String × SourceGame) :=
  preds.filterMap (fun p =>
    if p.1 = bs then none
    else (p.2.find? (fun g => is_same_game g away home)).map (fun g => (p.1, g)))

/-- EdgeFinder.match_games_across_sources (edge_finder.py lines 175-217). -/
def match_games_across_sources (preds : List (String × List SourceGame)) :
    List MatchedGame :=
  match base_source preds with
  | none => []
  | some bs =>
    match pyLookup preds bs with
    | none => []
    | some base_games =>
      base_games.filterMap (fun bg =>
        match bg.away_team, bg.home_team with
        | some a, some b =>
          some { away_team := normalize_team_names a,
                 home_team := normalize_team_names b,
                 date := bg.date.getD [],
                 predictions := (bs, bg) ::
                   attach_others preds bs (normalize_team_names a) (normalize_team_names b) }
        | _, _ => none)

/-- Anchor record with date 2026-03-01 (for the cross-date example). -/
def gW1 : SourceGame :=
  { away_team := some "Duke".toList, home_team := some "UNC".toList,
    date := some "2026-03-01".toList, preds := none }

/-- Same team pair from a second source but dated 2026-03-02. -/
def gW2 : SourceGame :=
  { away_team := some "Duke".toList, home_team := some "UNC".toList,
    date := some "2026-03-02".toList, preds := none }

/-- Predictions mapping holding the two records of gW1 and gW2. -/
def predsW : List (String × List SourceGame) :=
  [("dratings", [gW1]), ("cbbpy", [gW2])]

/-- The single matched game the matcher builds from predsW. -/
def mgW : MatchedGame :=
  { away_team := "Duke".toList, home_team := "North Carolina".toList,
    date := "2026-03-01".toList,
    predictions := [("dratings", gW1), ("cbbpy", gW2)] }

/-- C4 counterexample: the matcher merges two records whose dates differ
(2026-03-01 from the anchor, 2026-03-02 from the other source) into one
MatchedGame, because is_same_game compares only the canonical team pair
and never the date. -/
theorem match_merges_distinct_dates :
    match_games_across_sources predsW = [mgW] ∧
      gW1.date = some "2026-03-01".toList ∧
      gW2.date = some "2026-03-02".toList ∧
      "2026-03-02".toList ≠ "2026-03-01".toList :=
  ⟨by decide, rfl, rfl, by decide⟩

/-- C4 (amended): every RawPrediction attached to a MatchedGame has the
same canonical (away team, home team) pair as the game itself; the date is
not part of the matching key, so records from non-anchor sources that
agree on the team pair but not the date are still merged. -/
theorem matched_games_team_key (preds : List (String × List SourceGame)) :
    ∀ mg ∈ match_games_across_sources preds, ∀ sg ∈ mg.predictions,
      ∃ a b, sg.2.away_team = some a ∧ sg.2.home_team = some b ∧
        normalize_team_names a = mg.away_team ∧
        normalize_team_names b = mg.home_team := by
  intro mg hmg sg hsg
  unfold match_games_across_sources at hmg
  rcases hbs : base_source preds with _ | bs
  · simp only [hbs] at hmg
    simp at hmg
  simp only [hbs] at hmg
  rcases hlk : pyLookup preds bs with _ | base_games
  · simp only [hlk] at hmg
    simp at hmg
  simp only [hlk, List.mem_filterMap] at hmg
  obtain ⟨bg, _, hmk⟩ := hmg
  rcases hba : bg.away_team with _ | a0
  · simp only [hba] at hmk
    exact Option.noConfusion hmk
  rcases hbh : bg.home_team with _ | b0
  · simp only [hba, hbh] at hmk
    exact Option.noConfusion hmk
  simp only [hba, hbh, Option.some_inj] at hmk
  subst hmk
  rcases List.mem_cons.mp hsg with rfl | hmem
  · exact ⟨a0, b0, hba, hbh, rfl, rfl⟩
  · rw [attach_others, List.mem_filterMap] at hmem
    obtain ⟨p, _, hpmk⟩ := hmem
    by_cases hpb : p.1 = bs
    · rw [if_pos hpb] at hpmk
      simp at hpmk
    · rw [if_neg hpb, Option.map_eq_some'] at hpmk
      obtain ⟨g, hfind, hg⟩ := hpmk
      have hsame := List.find?_some hfind
      unfold is_same_game at hsame
      rcases hga : g.away_team with _ | ga
      · simp only [hga] at hsame
        exact Bool.noConfusion hsame
      rcases hgh : g.home_team with _ | gb
      · simp only [hga, hgh] at hsame
        exact Bool.noConfusion hsame
      simp only [hga, hgh, Bool.and_eq_true, decide_eq_true_eq] at hsame
      subst hg
      exact ⟨ga, gb, hga, hgh, hsame.1, hsame.2⟩

/-- C4 witness: the key property applied to the concrete attached cbbpy
record of the matched game built from predsW. -/
theorem matched_games_team_key_witness :
    ∃ a b, gW2.away_team = some a ∧ gW2.home_team = some b ∧
      normalize_team_names a = mgW.away_team ∧
      normalize_team_names b = mgW.home_team :=
  matched_games_team_key predsW mgW (by decide) ("cbbpy", gW2) (by decide)

/-- One aggregated metric of calculate_consensus_prediction: the avg_*,
std_* and count_* values for that metric (edge_finder.py lines 253-259).
Since np.std is a real square root, the entry records its square (stdSq,
the population variance, or 0 when fewer than two samples); this is a
faithful recoding because np.std is nonnegative, and it keeps the
embedding inside the rationals. -/
structure ConsensusEntry where
  avg : ℚ
  stdSq : ℚ
  count : ℕ
deriving DecidableEq, Repr

/-- The result dict of calculate_consensus_prediction: a metric's keys are
present if and only if at least one value was collected for it. -/
structure ConsensusResult where
  away_win_prob : Option ConsensusEntry
  home_win_prob : Option ConsensusEntry
  spread : Option ConsensusEntry
  total : Option ConsensusEntry
deriving DecidableEq, Repr

/-- The values collected for one metric (edge_finder.py lines 238-250):
the metric's value from every attached record whose inner predictions dict
is present and whose value is present and truthy — Python truthiness means
a present value equal to 0 is skipped. -/
def collectTruthy (mg : MatchedGame) (f : PredData → Option ℚ) : List ℚ :=
  mg.predictions.filterMap (fun p =>
    match p.2.preds with
    | some pd =>
      match f pd with
      | some v => if v = 0 then none else some v
      | none => none
    | none => none)

/-- Arithmetic mean (np.mean). -/
def meanQ (vs : List ℚ) : ℚ :=
  vs.sum / vs.length

/-- Population variance, the square of np.std. -/
def popVar (vs : List ℚ) : ℚ :=
  ((vs.map (fun v => (v - meanQ vs) ^ 2)).sum) / vs.length

/-- The avg/std/count triple stored for one metric when its collected
value list is non-empty (edge_finder.py lines 254-258): mean, np.std when
more than one value else 0 (recorded squared), and the count. -/
def consensusEntry (vs : List ℚ) : Option ConsensusEntry :=
  match vs with
  | [] => none
  | _ :: _ => some ⟨meanQ vs, if 1 < vs.length then popVar vs else 0, vs.length⟩

/-- EdgeFinder.calculate_consensus_prediction (edge_finder.py lines
227-260). -/
def calculate_consensus_prediction (mg : MatchedGame) : ConsensusResult :=
  { away_win_prob := consensusEntry (collectTruthy mg (fun pd => pd.model_win_prob_away)),
    home_win_prob := consensusEntry (collectTruthy mg (fun pd => pd.model_win_prob_home)),
    spread := consensusEntry (collectTruthy mg (fun pd => pd.predicted_spread)),
    total := consensusEntry (collectTruthy mg (fun pd => pd.predicted_total)) }

/-- Specification of one aggregated metric entry against its collected
value list: present iff some value was collected, and then carrying the
arithmetic mean, the collected count, and the (squared) population
standard deviation, which is exactly 0 below two samples. -/
def entrySpec (entry : Option ConsensusEntry) (vs : List ℚ) : Prop :=
  (entry = none ↔ vs = []) ∧
    ∀ e, entry = some e →
      e.avg = meanQ vs ∧ e.count = vs.length ∧ e.stdSq = popVar vs ∧
        (vs.length < 2 → e.stdSq = 0)

/-- The population variance of a single observation is 0. -/
theorem popVar_singleton (v : ℚ) : popVar [v] = 0 := by
  simp [popVar, meanQ]

/-- consensusEntry satisfies entrySpec on every value list. -/
theorem consensusEntry_spec (vs : List ℚ) : entrySpec (consensusEntry vs) vs := by
  unfold entrySpec consensusEntry
  match vs with
  | [] => simp
  | v :: rest =>
    refine ⟨by simp, fun e he => ?_⟩
    have he' := Option.some_inj.mp he
    subst he'
    refine ⟨rfl, rfl, ?_, ?_⟩
    · by_cases hlen : 1 < (v :: rest).length
      · rw [if_pos hlen]
      · rw [if_neg hlen]
        have : rest = [] := by
          cases rest with
          | nil => rfl
          | cons x xs =>
            exact absurd (by simp only [List.length_cons]; omega) hlen
        subst this
        exact (popVar_singleton v).symm
    · intro hlen
      have : ¬ 1 < (v :: rest).length := by
        simp only [List.length_cons] at hlen ⊢
        omega
      rw [if_neg this]

/-- Matched game holding a single source record that supplies a present
predicted spread of exactly 0 (a pick-em line) and nothing else. -/
def mgZ : MatchedGame :=
  { away_team := "Navy".toList, home_team := "Army".toList,
    date := "2026-02-01".toList,
    predictions := [("dratings",
      { away_team := some "Navy".toList, home_team := some "Army".toList,
        date := some "2026-02-01".toList,
        preds := some { model_win_prob_away := none, model_win_prob_home := none,
                        predicted_spread := some 0, predicted_total := none } })] }

/-- C3 counterexample: a source supplies a present spread value (0), yet
the aggregation result has no spread entry: the truthiness check in the
collection loop drops present values equal to 0, so presence of a value is
not sufficient for the metric to appear. -/
theorem consensus_drops_zero_counterexample :
    (calculate_consensus_prediction mgZ).spread = none ∧
      mgZ.predictions.map (fun p => p.2.preds.map (fun pd => pd.predicted_spread)) =
        [some (some 0)] := by
  constructor
  · rfl
  · rfl

/-- C3 (amended): for every matched game and each of the four metrics, the
aggregation result has an entry for the metric if and only if at least one
source supplies a present truthy (nonzero) value for it; when present, the
entry's mean is the arithmetic mean of the collected values, its count is
their number, and its standard deviation is the population standard
deviation of the collected values (exactly 0 when fewer than 2 values); a
metric whose collected value list is empty is absent, never present with
value 0. -/
theorem consensus_aggregation_spec (mg : MatchedGame) :
    entrySpec (calculate_consensus_prediction mg).away_win_prob
        (collectTruthy mg (fun pd => pd.model_win_prob_away)) ∧
      entrySpec (calculate_consensus_prediction mg).home_win_prob
        (collectTruthy mg (fun pd => pd.model_win_prob_home)) ∧
      entrySpec (calculate_consensus_prediction mg).spread
        (collectTruthy mg (fun pd => pd.predicted_spread)) ∧
      entrySpec (calculate_consensus_prediction mg).total
        (collectTruthy mg (fun pd => pd.predicted_total)) :=
  ⟨consensusEntry_spec _, consensusEntry_spec _, consensusEntry_spec _,
    consensusEntry_spec _⟩

/-- Matched game with two sources reporting away win probabilities 3/5 and
7/10. -/
def mgV : MatchedGame :=
  { away_team := "Navy".toList, home_team := "Army".toList,
    date := "2026-02-01".toList,
    predictions :=
      [("dratings",
        { away_team := some "Navy".toList, home_team := some "Army".toList,
          date := some "2026-02-01".toList,
          preds := some { model_win_prob_away := some (3/5), model_win_prob_home := none,
                          predicted_spread := none, predicted_total := none } }),
       ("cbbpy",
        { away_team := some "Navy".toList, home_team := some "Army".toList,
          date := some "2026-02-01".toList,
          preds := some { model_win_prob_away := some (7/10), model_win_prob_home := none,
                          predicted_spread := none, predicted_total := none } })] }

/-- C3 witness: on the concrete two-source game mgV the away-probability
entry is present with mean 13/20, squared deviation 1/400 and count 2, and
the mean equals the arithmetic mean of the collected values. -/
theorem consensus_aggregation_spec_witness :
    (calculate_consensus_prediction mgV).away_win_prob = some ⟨13/20, 1/400, 2⟩ ∧
      (13/20 : ℚ) = meanQ (collectTruthy mgV (fun pd => pd.model_win_prob_away)) := by
  have hcollect : collectTruthy mgV (fun pd => pd.model_win_prob_away) =
      [3/5, 7/10] := by
    norm_num [collectTruthy, mgV, List.filterMap_cons]
  have hval : (calculate_consensus_prediction mgV).away_win_prob =
      some ⟨13/20, 1/400, 2⟩ := by
    show consensusEntry (collectTruthy mgV (fun pd => pd.model_win_prob_away)) =
      some ⟨13/20, 1/400, 2⟩
    rw [hcollect]
    norm_num [consensusEntry, meanQ, popVar, List.sum_cons, List.sum_nil]
  refine ⟨hval, ?_⟩
  exact ((consensus_aggregation_spec mgV).1.2 ⟨13/20, 1/400, 2⟩ hval).1

/-- One edge record built by identify_game_edges (edge_finder.py lines
331-341 and 350-360).  The confidence field of the source (a score built
from the real-valued np.std via calculate_confidence) is not modelled: it
requires a real square root, no claim concerns it, and it has no effect on
whether an edge is emitted. -/
structure Edge where
  bet_type : List Char
  team : List Char
  side : List Char
  model_prob : ℚ
  market_prob : ℚ
  edge_percent : ℚ
  kelly_bet_amount : ℚ
  recommended : Bool
deriving DecidableEq, Repr

/-- The hardcoded placeholder away moneyline odds of identify_game_edges
(edge_finder.py line 317): the function consults no market-line input at
all. -/
def placeholder_away_ml_odds : ℤ := 110

/-- The hardcoded placeholder home moneyline odds (edge_finder.py line
318). -/
def placeholder_home_ml_odds : ℤ := -110

/-- EdgeFinder.identify_game_edges (edge_finder.py lines 310-365).  Its
signature mirrors the source: it receives the matched game and the
consensus only — no market line — and evaluates the moneyline sides
against the hardcoded placeholder odds; spread and total are never
evaluated (the source only carries a comment there). -/
def identify_game_edges (game : MatchedGame) (consensus : ConsensusResult)
    (min_edge : ℚ) : List Edge :=
  (match consensus.away_win_prob with
   | some e =>
     let model_prob := e.avg
     let market_prob := odds_to_probability placeholder_away_ml_odds
     let edge := calculate_edge model_prob market_prob
     if min_edge ≤ |edge| then
       [{ bet_type := "moneyline".toList, team := game.away_team,
          side := "away".toList, model_prob := model_prob,
          market_prob := market_prob, edge_percent := edge,
          kelly_bet_amount := kelly_criterion model_prob market_prob 1000,
          recommended := decide (0 < edge) }]
     else []
   | none => []) ++
  (match consensus.home_win_prob with
   | some e =>
     let model_prob := e.avg
     let market_prob := odds_to_probability placeholder_home_ml_odds
     let edge := calculate_edge model_prob market_prob
     if min_edge ≤ |edge| then
       [{ bet_type := "moneyline".toList, team := game.home_team,
          side := "home".toList, model_prob := model_prob,
          market_prob := market_prob, edge_percent := edge,
          kelly_bet_amount := kelly_criterion model_prob market_prob 1000,
          recommended := decide (0 < edge) }]
     else []
   | none => [])

/-- Matched game used as the failing input for the placeholder-market
evaluation. -/
def mgC1 : MatchedGame :=
  { away_team := "Navy".toList, home_team := "Army".toList,
    date := "2026-03-15".toList, predictions := [] }

/-- Consensus carrying only an away win probability of 9/10 for mgC1; no
market line exists anywhere in this input. -/
def consensusC1 : ConsensusResult :=
  { away_win_prob := some ⟨9/10, 0, 1⟩, home_win_prob := none,
    spread := none, total := none }

/-- C1 failing-input evaluation: identify_game_edges receives no market
line whatsoever (it has no market parameter), yet it emits an away
moneyline edge whose market probability 10/21 is manufactured from the
hardcoded placeholder odds +110, contradicting the requirement that no
edge be produced when the market line is unavailable and that market
values never be invented. -/
theorem identify_game_edges_placeholder :
    (identify_game_edges mgC1 consensusC1 2).map
        (fun e => (e.side, e.market_prob, e.edge_percent)) =
      [("away".toList, 10/21, 89)] ∧
      odds_to_probability placeholder_away_ml_odds = 10/21 := by
  have hmarket : odds_to_probability placeholder_away_ml_odds = 10/21 := by
    norm_num [odds_to_probability, placeholder_away_ml_odds]
  refine ⟨?_, hmarket⟩
  have hedge : calculate_edge (9/10) (10/21) = 89 := by
    norm_num [calculate_edge]
  simp only [identify_game_edges, consensusC1, mgC1, hmarket, hedge]
  norm_num [hedge]

/-- One per-game report of find_edges (edge_finder.py lines 291-298): the
game teams and date, the consensus, the non-empty edge list, the maximum
of the (signed) edge percentages, and the number of contributing
sources. -/
structure Report where
  away : List Char
  home : List Char
  date : List Char
  consensus : ConsensusResult
  edges : List Edge
  max_edge : ℚ
  sources_count : ℕ
deriving DecidableEq, Repr

/-- The report-assembly loop of find_edges (edge_finder.py lines 286-299),
before sorting: one report per matched game with a non-empty edge list. -/
def assemble_reports (preds : List (String × List SourceGame)) (min_edge : ℚ) :
    List Report :=
  (match_games_across_sources preds).filterMap (fun g =>
    match identify_game_edges g (calculate_consensus_prediction g) min_edge with
    | [] => none
    | e :: es =>
      some { away := g.away_team, home := g.home_team, date := g.date,
             consensus := calculate_consensus_prediction g, edges := e :: es,
             max_edge := (es.map (fun x => x.edge_percent)).foldl max e.edge_percent,
             sources_count := g.predictions.length })

/-- The comparator realising Python list.sort(key=(max_edge,
sources_count), reverse=True) (edge_finder.py line 302): a may precede b
when b's key tuple is lexicographically at most a's. -/
def reportLE (a b : Report) : Bool :=
  decide (b.max_edge < a.max_edge ∨
    (b.max_edge = a.max_edge ∧ b.sources_count ≤ a.sources_count))

/-- The post-fetch portion of EdgeFinder.find_edges (edge_finder.py lines
277-304): match games, build per-game reports, and stably sort them
descending by (max_edge, sources_count).  mergeSort with reportLE is the
stable descending sort Python's list.sort performs. -/
def find_edges_core (preds : List (String × List SourceGame)) (min_edge : ℚ) :
    List Report :=
  (assemble_reports preds min_edge).mergeSort reportLE

/-- reportLE is total. -/
theorem reportLE_total (a b : Report) : reportLE a b || reportLE b a := by
  simp only [reportLE, Bool.or_eq_true, decide_eq_true_eq]
  rcases lt_trichotomy a.max_edge b.max_edge with h | h | h
  · exact Or.inr (Or.inl h)
  · rcases le_total b.sources_count a.sources_count with hs | hs
    · exact Or.inl (Or.inr ⟨h.symm, hs⟩)
    · exact Or.inr (Or.inr ⟨h, hs⟩)
  · exact Or.inl (Or.inl h)

/-- reportLE is transitive. -/
theorem reportLE_trans (a b c : Report) :
    reportLE a b → reportLE b c → reportLE a c := by
  simp only [reportLE, decide_eq_true_eq]
  intro hab hbc
  rcases hab with h1 | ⟨h1, hs1⟩
  · rcases hbc with h2 | ⟨h2, hs2⟩
    · exact Or.inl (lt_trans h2 h1)
    · exact Or.inl (lt_of_le_of_lt (le_of_eq h2) h1)
  · rcases hbc with h2 | ⟨h2, hs2⟩
    · exact Or.inl (lt_of_lt_of_le h2 (le_of_eq h1))
    · exact Or.inr ⟨h2.trans h1, le_trans hs2 hs1⟩

/-- A left fold of max either returns its seed or an element of the
list. -/
theorem foldl_max_mem (l : List ℚ) (a : ℚ) :
    l.foldl max a = a ∨ l.foldl max a ∈ l := by
  induction l generalizing a with
  | nil => exact Or.inl rfl
  | cons x xs ih =>
    rw [List.foldl_cons]
    rcases ih (max a x) with h | h
    · rcases max_cases a x with ⟨hm, _⟩ | ⟨hm, _⟩
      · exact Or.inl (by rw [h, hm])
      · exact Or.inr (by rw [h, hm]; exact List.mem_cons_self x xs)
    · exact Or.inr (List.mem_cons_of_mem x h)

/-- A left fold of max bounds its seed and every element of the list. -/
theorem le_foldl_max (l : List ℚ) (a : ℚ) :
    a ≤ l.foldl max a ∧ ∀ x ∈ l, x ≤ l.foldl max a := by
  induction l generalizing a with
  | nil => exact ⟨le_refl a, by simp⟩
  | cons y ys ih =>
    obtain ⟨h1, h2⟩ := ih (max a y)
    rw [List.foldl_cons]
    refine ⟨le_trans (le_max_left a y) h1, ?_⟩
    intro x hx
    rcases List.mem_cons.mp hx with rfl | hx
    · exact le_trans (le_max_right a x) h1
    · exact h2 x hx

/-- C6 (amended): the ranked reports are a stable sort of the assembled
report set, ordered descending by the game's maximum signed edge
percentage with ties broken by contributing-source count descending: the
output is sorted in that order, is a permutation of the assembled reports,
preserves the original relative order of reports with equal sort keys, and
each report's max_edge is the maximum of the signed (not absolute) edge
percentages of its edges. -/
theorem find_edges_ranking (preds : List (String × List SourceGame)) (m : ℚ) :
    (find_edges_core preds m).Pairwise (fun a b =>
        b.max_edge < a.max_edge ∨
          (b.max_edge = a.max_edge ∧ b.sources_count ≤ a.sources_count)) ∧
      (find_edges_core preds m).Perm (assemble_reports preds m) ∧
      (∀ a b : Report, a.max_edge = b.max_edge → a.sources_count = b.sources_count →
        [a, b].Sublist (assemble_reports preds m) →
        [a, b].Sublist (find_edges_core preds m)) ∧
      (∀ r ∈ find_edges_core preds m,
        r.max_edge ∈ r.edges.map (fun e => e.edge_percent) ∧
          ∀ e ∈ r.edges, e.edge_percent ≤ r.max_edge) := by
  refine ⟨?_, List.mergeSort_perm _ _, fun a b h1 h2 hsub => ?_, fun r hr => ?_⟩
  · have h := @List.sorted_mergeSort Report reportLE reportLE_trans reportLE_total
      (assemble_reports preds m)
    exact h.imp (fun hab => by simpa [reportLE, decide_eq_true_eq] using hab)
  · have hab : reportLE a b := by
      simp only [reportLE, decide_eq_true_eq]
      exact Or.inr ⟨h1.symm, le_of_eq h2.symm⟩
    exact List.pair_sublist_mergeSort reportLE_trans reportLE_total hab hsub
  · rw [find_edges_core, List.mem_mergeSort, assemble_reports,
      List.mem_filterMap] at hr
    obtain ⟨g, _, hmk⟩ := hr
    rcases hE : identify_game_edges g (calculate_consensus_prediction g) m with _ | ⟨e, es⟩
    · simp only [hE] at hmk
      exact Option.noConfusion hmk
    · simp only [hE, Option.some_inj] at hmk
      subst hmk
      constructor
      · rw [List.map_cons]
        rcases foldl_max_mem (es.map (fun x => x.edge_percent)) e.edge_percent with h | h
        · rw [h]
          exact List.mem_cons_self _ _
        · exact List.mem_cons_of_mem _ h
      · intro x hx
        rcases List.mem_cons.mp hx with rfl | hx
        · exact (le_foldl_max _ _).1
        · exact (le_foldl_max _ _).2 _ (List.mem_map_of_mem _ hx)

/-- Lookup success implies the key-value pair is in the mapping. -/
theorem pyLookup_some_mem {preds : List (String × List SourceGame)} {s : String}
    {gs : List SourceGame} (h : pyLookup preds s = some gs) : (s, gs) ∈ preds := by
  induction preds with
  | nil => simp [pyLookup] at h
  | cons p rest ih =>
    obtain ⟨k, v⟩ := p
    rw [pyLookup] at h
    by_cases hk : k = s
    · rw [if_pos hk] at h
      subst hk
      rw [← Option.some_inj.mp h]
      exact List.mem_cons_self _ _
    · rw [if_neg hk] at h
      exact List.mem_cons_of_mem _ (ih h)

/-- Lookup of an absent key fails. -/
theorem pyLookup_eq_none {preds : List (String × List SourceGame)} {s : String}
    (h : ∀ p ∈ preds, p.1 ≠ s) : pyLookup preds s = none := by
  induction preds with
  | nil => rfl
  | cons p rest ih =>
    obtain ⟨k, v⟩ := p
    rw [pyLookup, if_neg (h (k, v) (List.mem_cons_self _ _))]
    exact ih (fun q hq => h q (List.mem_cons_of_mem _ hq))

/-- A source entry with an empty record list never becomes the anchor. -/
theorem base_source_cons_empty {preds : List (String × List SourceGame)} {s : String}
    (h : ∀ p ∈ preds, p.1 ≠ s) :
    base_source ((s, []) :: preds) = base_source preds := by
  unfold base_source
  congr 1
  funext c
  rw [pyLookup]
  by_cases hc : s = c
  · rw [if_pos hc]
    subst hc
    rw [pyLookup_eq_none h]
    rfl
  · rw [if_neg hc]

/-- A source entry with an empty record list attaches nothing. -/
theorem attach_others_cons_empty {preds : List (String × List SourceGame)}
    {s bs : String} (hne : s ≠ bs) (away home : List Char) :
    attach_others ((s, []) :: preds) bs away home =
      attach_others preds bs away home := by
  rw [attach_others, attach_others, List.filterMap_cons]
  simp [hne]

/-- Adding a source that returned no data leaves the matched-game set
unchanged. -/
theorem match_games_cons_empty {preds : List (String × List SourceGame)} {s : String}
    (h : ∀ p ∈ preds, p.1 ≠ s) :
    match_games_across_sources ((s, []) :: preds) =
      match_games_across_sources preds := by
  unfold match_games_across_sources
  rw [base_source_cons_empty h]
  rcases hbs : base_source preds with _ | bs
  · simp only [hbs]
  · have hbs' := List.find?_some hbs
    rcases hlk : pyLookup preds bs with _ | gs
    · simp only [hlk] at hbs'
      exact Bool.noConfusion hbs'
    · have hmem := pyLookup_some_mem hlk
      have hbneq : bs ≠ s := h (bs, gs) hmem
      have hsb : s ≠ bs := fun hh => hbneq hh.symm
      have hcons : pyLookup ((s, []) :: preds) bs = pyLookup preds bs := by
        rw [pyLookup, if_neg hsb]
      simp only [hbs, hcons, hlk]
      congr 1
      funext bg
      rcases bg.away_team with _ | a0 <;> rcases bg.home_team with _ | b0 <;>
        simp only [attach_others_cons_empty hsb]

/-- C9: the post-fetch pipeline is a total function of the fetched data;
when every configured source returned no data the result is the empty
report list (not an error), and a source whose fetch failed or returned no
data (modelled by its entry carrying the empty record list) contributes
nothing: dropping it leaves the output unchanged. -/
theorem find_edges_graceful (preds : List (String × List SourceGame)) (m : ℚ)
    (s : String) :
    ((∀ p ∈ preds, p.2 = []) → find_edges_core preds m = []) ∧
      ((∀ p ∈ preds, p.1 ≠ s) →
        find_edges_core ((s, []) :: preds) m = find_edges_core preds m) := by
  constructor
  · intro h
    have hbs : base_source preds = none := by
      rw [base_source, List.find?_eq_none]
      intro c _
      rcases hc : pyLookup preds c with _ | gs
      · simp
      · have hgs : gs = [] := h (c, gs) (pyLookup_some_mem hc)
        subst hgs
        simp
    have hmatch : match_games_across_sources preds = [] := by
      unfold match_games_across_sources
      rw [hbs]
    have hassemble : assemble_reports preds m = [] := by
      rw [assemble_reports, hmatch]
      rfl
    rw [find_edges_core, hassemble]
    exact List.mergeSort_nil
  · intro h
    rw [find_edges_core, find_edges_core, assemble_reports, assemble_reports,
      match_games_cons_empty h]

/-- Predictions mapping in which every configured source returned no
data. -/
def predsE : List (String × List SourceGame) :=
  [("dratings", []), ("cbbpy", [])]

/-- C9 witness: with all sources empty the pipeline returns the empty
report list, and prepending a failed source ("massey" with no data) to the
two-source mapping predsW leaves the pipeline output unchanged. -/
theorem find_edges_graceful_witness :
    find_edges_core predsE 2 = [] ∧
      find_edges_core (("massey", []) :: predsW) 2 = find_edges_core predsW 2 :=
  ⟨(find_edges_graceful predsE 2 "massey").1 (by decide),
   (find_edges_graceful predsW 2 "massey").2 (by decide)⟩

/-- Single-source record predicting an away win probability of 1/10: well
below the placeholder market probability 10/21, so its only edge is
negative. -/
def gN : SourceGame :=
  { away_team := some "Navy".toList, home_team := some "Army".toList,
    date := some "2026-02-01".toList,
    preds := some { model_win_prob_away := some (1/10), model_win_prob_home := none,
                    predicted_spread := none, predicted_total := none } }

/-- Predictions mapping holding only gN. -/
def predsN : List (String × List SourceGame) := [("dratings", [gN])]

/-- The matched game built from gN. -/
def mgN : MatchedGame :=
  { away_team := "Navy".toList, home_team := "Army".toList,
    date := "2026-02-01".toList, predictions := [("dratings", gN)] }

/-- Consensus of mgN: single away win probability 1/10. -/
def consensusN : ConsensusResult :=
  { away_win_prob := some ⟨1/10, 0, 1⟩, home_win_prob := none,
    spread := none, total := none }

/-- The single (negative) edge found for mgN. -/
def edgeN : Edge :=
  { bet_type := "moneyline".toList, team := "Navy".toList, side := "away".toList,
    model_prob := 1/10, market_prob := 10/21, edge_percent := -79,
    kelly_bet_amount := 0, recommended := false }

/-- The report assembled for mgN: note max_edge is the signed value -79. -/
def reportN : Report :=
  { away := "Navy".toList, home := "Army".toList, date := "2026-02-01".toList,
    consensus := consensusN, edges := [edgeN], max_edge := -79, sources_count := 1 }

/-- The away-probability values collected for mgN. -/
theorem collect_mgN_away :
    collectTruthy mgN (fun pd => pd.model_win_prob_away) = [1/10] := by
  norm_num [collectTruthy, mgN, gN, List.filterMap_cons]

/-- Consensus evaluation for mgN. -/
theorem consensus_mgN : calculate_consensus_prediction mgN = consensusN := by
  have e1 : consensusEntry [1/10] = some ⟨1/10, 0, 1⟩ := by
    norm_num [consensusEntry, meanQ]
  simp only [calculate_consensus_prediction, collect_mgN_away, e1]
  rfl

/-- Edge evaluation for mgN: one away moneyline edge of -79 percent. -/
theorem edges_mgN : identify_game_edges mgN consensusN 2 = [edgeN] := by
  have hmarket : odds_to_probability placeholder_away_ml_odds = 10/21 := by
    norm_num [odds_to_probability, placeholder_away_ml_odds]
  have hedge : calculate_edge (1/10) (10/21) = -79 := by
    norm_num [calculate_edge]
  have hkelly : kelly_criterion (1/10) (10/21) 1000 = 0 := by
    norm_num [kelly_criterion]
  have hrec : decide ((0:ℚ) < -79) = false := by norm_num
  simp only [identify_game_edges, consensusN, mgN, hmarket, hedge, hkelly, hrec]
  norm_num [edgeN]

/-- Report assembly for predsN. -/
theorem assemble_predsN : assemble_reports predsN 2 = [reportN] := by
  have hmatch : match_games_across_sources predsN = [mgN] := by rfl
  rw [assemble_reports, hmatch, List.filterMap_cons]
  rw [show calculate_consensus_prediction mgN = consensusN from consensus_mgN, edges_mgN]
  rfl

/-- C6 counterexample: the pipeline report for predsN carries
max_edge = -79, the maximum SIGNED edge percentage, while the maximum
absolute edge percentage of its edges is 79; so max_edge does not equal
the maximum absolute edge percentage claimed. -/
theorem find_edges_max_edge_signed_counterexample :
    (find_edges_core predsN 2).map
        (fun r => (r.max_edge, r.edges.map (fun e => |e.edge_percent|))) =
      [(-79, [79])] ∧ (-79 : ℚ) ≠ 79 := by
  have hsorted : (assemble_reports predsN 2).Pairwise (fun a b => reportLE a b) := by
    rw [assemble_predsN]
    exact List.pairwise_singleton _ _
  constructor
  · rw [find_edges_core, List.mergeSort_of_sorted hsorted, assemble_predsN]
    norm_num [reportN, edgeN]
  · norm_num

/-- A second single-source record with the same prediction for a different
game, so that its report has the same sort key as reportN. -/
def gM : SourceGame :=
  { away_team := some "Lions".toList, home_team := some "Tigers".toList,
    date := some "2026-02-01".toList,
    preds := some { model_win_prob_away := some (1/10), model_win_prob_home := none,
                    predicted_spread := none, predicted_total := none } }

/-- Predictions mapping holding gN and gM under one source. -/
def predsS : List (String × List SourceGame) := [("dratings", [gN, gM])]

/-- The matched game built from gM. -/
def mgM : MatchedGame :=
  { away_team := "Lions".toList, home_team := "Tigers".toList,
    date := "2026-02-01".toList, predictions := [("dratings", gM)] }

/-- The single (negative) edge found for mgM. -/
def edgeM : Edge :=
  { bet_type := "moneyline".toList, team := "Lions".toList, side := "away".toList,
    model_prob := 1/10, market_prob := 10/21, edge_percent := -79,
    kelly_bet_amount := 0, recommended := false }

/-- The report assembled for mgM: same sort key (-79, 1) as reportN. -/
def reportM : Report :=
  { away := "Lions".toList, home := "Tigers".toList, date := "2026-02-01".toList,
    consensus := consensusN, edges := [edgeM], max_edge := -79, sources_count := 1 }

/-- The away-probability values collected for mgM. -/
theorem collect_mgM_away :
    collectTruthy mgM (fun pd => pd.model_win_prob_away) = [1/10] := by
  norm_num [collectTruthy, mgM, gM, List.filterMap_cons]

/-- Consensus evaluation for mgM. -/
theorem consensus_mgM : calculate_consensus_prediction mgM = consensusN := by
  have e1 : consensusEntry [1/10] = some ⟨1/10, 0, 1⟩ := by
    norm_num [consensusEntry, meanQ]
  simp only [calculate_consensus_prediction, collect_mgM_away, e1]
  rfl

/-- Edge evaluation for mgM. -/
theorem edges_mgM : identify_game_edges mgM consensusN 2 = [edgeM] := by
  have hmarket : odds_to_probability placeholder_away_ml_odds = 10/21 := by
    norm_num [odds_to_probability, placeholder_away_ml_odds]
  have hedge : calculate_edge (1/10) (10/21) = -79 := by
    norm_num [calculate_edge]
  have hkelly : kelly_criterion (1/10) (10/21) 1000 = 0 := by
    norm_num [kelly_criterion]
  have hrec : decide ((0:ℚ) < -79) = false := by norm_num
  simp only [identify_game_edges, consensusN, mgM, hmarket, hedge, hkelly, hrec]
  norm_num [edgeM]

/-- Report assembly for predsS: two reports with equal sort keys, in
source order. -/
theorem assemble_predsS : assemble_reports predsS 2 = [reportN, reportM] := by
  have hmatch : match_games_across_sources predsS = [mgN, mgM] := by rfl
  rw [assemble_reports, hmatch, List.filterMap_cons, List.filterMap_cons]
  rw [show calculate_consensus_prediction mgN = consensusN from consensus_mgN, edges_mgN]
  rw [show calculate_consensus_prediction mgM = consensusN from consensus_mgM, edges_mgM]
  rfl

/-- C6 witness: stability applied at the concrete two-report input predsS,
whose reports share the sort key (-79, 1): their original relative order
survives in the pipeline output. -/
theorem find_edges_ranking_witness :
    reportN.max_edge = reportM.max_edge ∧
      reportN.sources_count = reportM.sources_count ∧
      [reportN, reportM].Sublist (find_edges_core predsS 2) := by
  refine ⟨rfl, rfl, ?_⟩
  refine (find_edges_ranking predsS 2).2.2.1 reportN reportM rfl rfl ?_
  rw [assemble_predsS]

end MarchMadness
